import Mathlib

/-!
Verification of the request-serialized model-invocation service in `src/app.py`
(LLaMA text-generation HTTP front end).

Strings are modelled as `List Char`; Python `int` as `Int`; Python `float` as
`Rat` (the clamping and parameter-reporting claims are about order-theoretic
saturation, which is exact in `Rat`); the filesystem as a snapshot function
`List Char → Option FileStat`; the external child process as an explicit
outcome value fed to `generate`.
-/

namespace App

/-- Python whitespace characters recognised by `str.strip()` (ASCII subset,
which is what the service's outputs contain). -/
def isPySpace (c : Char) : Bool :=
  c = ' ' || c = '\t' || c = '\n' || c = '\r' || c = '\x0b' || c = '\x0c'

/-- Python `s.strip()`: drop whitespace from both ends. -/
def pyStrip (s : List Char) : List Char :=
  ((s.dropWhile isPySpace).reverse.dropWhile isPySpace).reverse

/-- Characters of a Lean string literal, used to transcribe the Python string
literals of `src/app.py`. -/
def strChars (s : String) : List Char := s.data

/-- Python `p in s` on strings: `p` occurs as a contiguous substring of `s`
(the empty string occurs in every string). -/
def containsSub : List Char → List Char → Bool
  | [], p => p.isEmpty
  | c :: rest, p => p.isPrefixOf (c :: rest) || containsSub rest p

/-- Python `s.replace(p, "", 1)`: remove the leftmost occurrence of `p` from
`s` (identity when `p` does not occur; removing the empty string is a no-op). -/
def removeFirst (p : List Char) : List Char → List Char
  | [] => []
  | c :: rest =>
    if p.isPrefixOf (c :: rest) then (c :: rest).drop p.length
    else c :: removeFirst p rest

/-- Lines 174-178 of `src/app.py`:
`output = process.stdout.strip()`;
`if request.prompt in output: output = output.replace(request.prompt, "", 1).strip()`. -/
def cleanOutput (prompt rawStdout : List Char) : List Char :=
  let output := pyStrip rawStdout
  if containsSub output prompt then pyStrip (removeFirst prompt output) else output

/-- Accumulator-style core of Python `s.split()` (split on whitespace runs,
discarding empty fields); `acc` holds the current word reversed. -/
def pySplitAux : List Char → List Char → List (List Char)
  | [], acc => if acc.isEmpty then [] else [acc.reverse]
  | c :: rest, acc =>
    if isPySpace c then
      if acc.isEmpty then pySplitAux rest [] else acc.reverse :: pySplitAux rest []
    else pySplitAux rest (c :: acc)

/-- Python `s.split()`. -/
def pySplit (s : List Char) : List (List Char) := pySplitAux s []

/-- Line 189 of `src/app.py`: `tokens_generated = len(output.split())`. -/
def countTokens (s : List Char) : Nat := (pySplit s).length

/-- `GenerationRequest` dataclass (lines 35-41). The dataclass is mutable;
`generate` writes the clamped parameter values back into it. -/
structure GenerationRequest where
  prompt : List Char
  max_tokens : Int := 512
  temperature : Rat := 0.8
  top_p : Rat := 0.9
  repeat_penalty : Rat := 1.1
deriving DecidableEq

/-- `GenerationResponse` dataclass (lines 43-49). -/
structure GenerationResponse where
  success : Bool
  text : List Char
  tokens_generated : Nat := 0
  generation_time : Rat := 0
  error : Option (List Char) := none
deriving DecidableEq

/-- The mutable fields of `LlamaModelManager` (lines 54-58); the lock is
modelled separately by the event system below. -/
structure ManagerState where
  llama_path : Option (List Char)
  model_path : Option (List Char)
  is_initialized : Bool
deriving DecidableEq

/-- Metadata a filesystem snapshot reports for an existing path. -/
structure FileStat where
  executable : Bool
  size : Nat
deriving DecidableEq

/-- `os.path.exists(p)` against a snapshot `fs` (nonexistent paths map to `none`). -/
def osPathExists (fs : List Char → Option FileStat) (p : List Char) : Bool :=
  (fs p).isSome

/-- `os.access(p, os.X_OK)` against a snapshot. -/
def osAccessX (fs : List Char → Option FileStat) (p : List Char) : Bool :=
  ((fs p).map FileStat.executable).getD false

/-- `os.path.getsize(p)` against a snapshot (only consulted after an
existence check in the source). -/
def osPathGetsize (fs : List Char → Option FileStat) (p : List Char) : Nat :=
  ((fs p).map FileStat.size).getD 0

/-- First element of a candidate list satisfying `ok` (the `for ... break`
loops of `_find_paths`, lines 84-100). -/
def findFirst (ok : List Char → Bool) : List (List Char) → Option (List Char)
  | [] => none
  | p :: rest => if ok p then some p else findFirst ok rest

/-- Line 85: `if path and os.path.exists(path) and os.access(path, os.X_OK)`. -/
def findLlamaPath (fs : List Char → Option FileStat)
    (cands : List (List Char)) : Option (List Char) :=
  findFirst (fun p => !p.isEmpty && (osPathExists fs p && osAccessX fs p)) cands

/-- Line 95: `if path and os.path.exists(path) and os.path.getsize(path) > 1024 * 1024`. -/
def findModelPath (fs : List Char → Option FileStat)
    (cands : List (List Char)) : Option (List Char) :=
  findFirst
    (fun p => !p.isEmpty && (osPathExists fs p && decide (1024 * 1024 < osPathGetsize fs p)))
    cands

/-- `_find_paths` (lines 80-107): resolve both paths and derive readiness
(`self.is_initialized = self.llama_path is not None and self.model_path is not None`). -/
def findPaths (fs : List Char → Option FileStat)
    (llamaCands modelCands : List (List Char)) : ManagerState :=
  let lp := findLlamaPath fs llamaCands
  let mp := findModelPath fs modelCands
  { llama_path := lp, model_path := mp, is_initialized := lp.isSome && mp.isSome }

/-- `self.possible_llama_paths` (lines 61-68). -/
def possible_llama_paths : List (List Char) :=
  [strChars "/app/llama.cpp/build/bin/llama-cli",
   strChars "/app/llama.cpp/build/bin/main",
   strChars "/app/llama.cpp/llama-cli",
   strChars "/app/llama.cpp/main",
   strChars "./llama.cpp/build/bin/llama-cli",
   strChars "./llama-cli"]

/-- `self.possible_model_paths` (lines 70-75); `envModelPath` is the value of
`os.environ.get("MODEL_PATH", "")`. -/
def possible_model_paths (envModelPath : List Char) : List (List Char) :=
  [strChars "/app/models/model.gguf",
   strChars "/app/models/tinyllama-1.1b-chat-v1.0.Q4_K_M.gguf",
   strChars "./models/model.gguf",
   envModelPath]

/-- Error string of the not-initialized short-circuit (line 124). -/
def notInitializedMsg : List Char :=
  strChars "Model not initialized. Check if LLaMA executable and model file exist."

/-- Error string of the non-zero-exit branch (line 171). -/
def execFailedMsg (returncode : Int) : List Char :=
  strChars "Model execution failed with code " ++ strChars (toString returncode)

/-- Error string of the empty-output branch (line 185). -/
def emptyOutputMsg : List Char :=
  strChars "Model generated empty response"

/-- Error string of the `subprocess.TimeoutExpired` branch (line 207). -/
def timeoutMsg : List Char :=
  strChars "Generation timeout exceeded (3 minutes)"

/-- Error string of the generic exception branch (line 216). -/
def unexpectedMsg (e : List Char) : List Char :=
  strChars "Unexpected error: " ++ e

/-- Outcome of the `subprocess.run` call as observed by `generate`:
normal completion with an exit code and captured streams, the
`subprocess.TimeoutExpired` exception, or any other exception. -/
inductive ProcOutcome where
  | completed (returncode : Int) (stdout stderr : List Char)
  | timedOut
  | raised (msg : List Char)
deriving DecidableEq

/-- Parameter clamping (lines 132-135), which assigns back into the request
dataclass:
`request.max_tokens = max(1, min(request.max_tokens, 4096))` and so on. -/
def clampParams (r : GenerationRequest) : GenerationRequest :=
  { r with
    max_tokens := max 1 (min r.max_tokens 4096),
    temperature := max 0.1 (min r.temperature 2.0),
    top_p := max 0.1 (min r.top_p 1.0),
    repeat_penalty := max 0.1 (min r.repeat_penalty 2.0) }

/-- Timeout argument passed to `subprocess.run` (line 158). -/
def generationTimeoutSeconds : Nat := 180

/-- Everything observable about one `generate` call: the returned response,
the request dataclass after the call (mutated in place by clamping), the
manager state after the call (`generate` never assigns to `self`), and the
timeout handed to `subprocess.run` when a child process was launched
(`none` when no launch was attempted). -/
structure GenOutcome where
  resp : GenerationResponse
  req : GenerationRequest
  state : ManagerState
  spawnTimeout : Option Nat
deriving DecidableEq

/-- `LlamaModelManager.generate` (lines 118-217). `proc` is the outcome of
the `subprocess.run` call, `elapsed` the wall-clock difference
`time.time() - start_time` at result construction. -/
def generate (st : ManagerState) (req : GenerationRequest)
    (proc : ProcOutcome) (elapsed : Rat) : GenOutcome :=
  if st.is_initialized = false then
    ⟨⟨false, [], 0, 0, some notInitializedMsg⟩, req, st, none⟩
  else
    let req := clampParams req
    match proc with
    | .completed rc out _err =>
      if rc ≠ 0 then
        ⟨⟨false, [], 0, elapsed, some (execFailedMsg rc)⟩, req, st,
          some generationTimeoutSeconds⟩
      else
        let output := cleanOutput req.prompt out
        if output = [] then
          ⟨⟨false, [], 0, elapsed, some emptyOutputMsg⟩, req, st,
            some generationTimeoutSeconds⟩
        else
          ⟨⟨true, output, countTokens output, elapsed, none⟩, req, st,
            some generationTimeoutSeconds⟩
    | .timedOut =>
      ⟨⟨false, [], 0, elapsed, some timeoutMsg⟩, req, st,
        some generationTimeoutSeconds⟩
    | .raised m =>
      ⟨⟨false, [], 0, elapsed, some (unexpectedMsg m)⟩, req, st,
        some generationTimeoutSeconds⟩

/-- JSON body of a `POST /generate` request: the optional `"prompt"` field and
the optional numeric fields read via `data.get(...)` (lines 341-347). -/
structure RawBody where
  promptField : Option (List Char)
  max_tokens : Option Int := none
  temperature : Option Rat := none
  top_p : Option Rat := none
  repeat_penalty : Option Rat := none
deriving DecidableEq

/-- Observable outcome of one `POST /generate` request: HTTP status, the JSON
body fields the claims mention, the request object handed to
`model_manager.generate` (`none` when `generate` was never invoked), and
whether a child process launch was attempted. -/
structure HandlerResult where
  status : Nat
  success : Option Bool := none
  text : Option (List Char) := none
  errorMsg : Option (List Char) := none
  params_used : Option (Int × Rat × Rat × Rat) := none
  invoked : Option GenerationRequest := none
  spawned : Bool := false
deriving DecidableEq

/-- Response produced by the registered `@app.errorhandler(500)` (lines
234-236) when an exception escapes the request handler. -/
def flask500 : HandlerResult :=
  { status := 500, errorMsg := some (strChars "Internal server error") }

/-- Construction of the `GenerationRequest` from the JSON body (lines
341-347): the prompt is `str(data["prompt"]).strip()` and each numeric field
defaults when absent. -/
def buildRequest (b : RawBody) (rawPrompt : List Char) : GenerationRequest :=
  { prompt := pyStrip rawPrompt,
    max_tokens := b.max_tokens.getD 512,
    temperature := b.temperature.getD 0.8,
    top_p := b.top_p.getD 0.9,
    repeat_penalty := b.repeat_penalty.getD 1.1 }

/-- The `generate_text` route handler (lines 321-390). `body?` is the value of
`request.get_json()` (`none` for a missing/null body).

The source's early-return branches build `jsonify({"success": false, ...})`
where `false` is an undefined Python name (Python's literal is `False`), so
evaluating the dict raises `NameError` before any response is built: in the
not-ready branch (line 327) the exception escapes the handler directly; in
the branches inside `try` (lines 336, 351) it is caught by
`except Exception` (line 385) whose own body re-evaluates `false` (line 388)
and raises the same `NameError` out of the handler. In every one of these
branches Flask's 500 error handler produces the response, modelled as
`flask500`. -/
def generate_text (st : ManagerState) (body? : Option RawBody)
    (proc : ProcOutcome) (elapsed : Rat) : HandlerResult :=
  if st.is_initialized = false then
    flask500
  else
    match body? with
    | none => flask500
    | some b =>
      match b.promptField with
      | none => flask500
      | some rawPrompt =>
        let gen_request := buildRequest b rawPrompt
        if gen_request.prompt = [] then
          flask500
        else
          let out := generate st gen_request proc elapsed
          if out.resp.success then
            { status := 200, success := some true, text := some out.resp.text,
              errorMsg := none,
              params_used := some (out.req.max_tokens, out.req.temperature,
                out.req.top_p, out.req.repeat_penalty),
              invoked := some gen_request,
              spawned := out.spawnTimeout.isSome }
          else
            { status := 500, success := some false, text := some out.resp.text,
              errorMsg := out.resp.error,
              params_used := some (out.req.max_tokens, out.req.temperature,
                out.req.top_p, out.req.repeat_penalty),
              invoked := some gen_request,
              spawned := out.spawnTimeout.isSome }

/-- Lock and process events a `generate` call performs, in order:
`acquire` enters `with self.model_lock` (line 129), `beginInvoke`/`endInvoke`
bracket the `subprocess.run` call (lines 154-160), `release` leaves the
`with` block. -/
inductive LockInstr where
  | acquire
  | beginInvoke
  | endInvoke
  | release
deriving DecidableEq

/-- The event sequence of one initialized `generate` call. Every branch of
the `try`/`except` (normal return, non-zero exit, empty output,
`TimeoutExpired`, generic exception) returns from inside the `with`
statement, which releases the lock on each of these exits. -/
def fullLockProg : List LockInstr :=
  [.acquire, .beginInvoke, .endInvoke, .release]

/-- Lock/process events of a `generate` call as a function of the manager
state: the not-initialized short-circuit (lines 120-125) runs before the
`with` statement and touches neither the lock nor a process; every other
call performs the full bracketed sequence. -/
def generateEvents (st : ManagerState) : List LockInstr :=
  if st.is_initialized = false then [] else fullLockProg

/-- State of the multi-threaded request handlers: who owns
`self.model_lock` (a `threading.Lock` has a single owner slot), and each
thread's position in its event sequence. -/
structure SysState (n : Nat) where
  owner : Option (Fin n)
  pc : Fin n → Nat

/-- All threads at the start, lock free. -/
def initState (n : Nat) : SysState n := ⟨none, fun _ => 0⟩

/-- Interleaving semantics: one thread executes its next event. `acquire`
needs the lock free and takes it; `release` frees a lock the thread owns;
the invoke events have no lock precondition of their own (mutual exclusion
must come from the program structure, not from the model). -/
inductive LockStep (progs : Fin n → List LockInstr) :
    SysState n → SysState n → Prop where
  | acquire (t : Fin n) (s : SysState n)
      (h : (progs t).get? (s.pc t) = some .acquire) (hfree : s.owner = none) :
      LockStep progs s ⟨some t, Function.update s.pc t (s.pc t + 1)⟩
  | beginInvoke (t : Fin n) (s : SysState n)
      (h : (progs t).get? (s.pc t) = some .beginInvoke) :
      LockStep progs s ⟨s.owner, Function.update s.pc t (s.pc t + 1)⟩
  | endInvoke (t : Fin n) (s : SysState n)
      (h : (progs t).get? (s.pc t) = some .endInvoke) :
      LockStep progs s ⟨s.owner, Function.update s.pc t (s.pc t + 1)⟩
  | release (t : Fin n) (s : SysState n)
      (h : (progs t).get? (s.pc t) = some .release) (hown : s.owner = some t) :
      LockStep progs s ⟨none, Function.update s.pc t (s.pc t + 1)⟩

/-- Thread `t` is currently executing the external process: it has passed
`beginInvoke` and its next event is `endInvoke`. -/
def Invoking (progs : Fin n → List LockInstr) (s : SysState n) (t : Fin n) : Prop :=
  (progs t).get? (s.pc t) = some .endInvoke

/-! ### Lemmas about the string model -/

lemma isPrefixOf_iff_exists (p : List Char) :
    ∀ t, p.isPrefixOf t = true ↔ ∃ v, p ++ v = t := by
  induction p with
  | nil =>
    intro t
    simp [List.isPrefixOf]
  | cons a as ih =>
    intro t
    cases t with
    | nil => simp [List.isPrefixOf]
    | cons b bs =>
      simp only [List.isPrefixOf, Bool.and_eq_true, beq_iff_eq, ih bs]
      constructor
      · rintro ⟨rfl, v, rfl⟩
        exact ⟨v, rfl⟩
      · rintro ⟨v, h⟩
        injection h with h1 h2
        exact ⟨h1, v, h2⟩

/-- `removeFirst` removes exactly the leftmost occurrence: whenever `p`
occurs in `t`, `t` splits as `u ++ p ++ v` with `u` shortest possible and
`removeFirst p t = u ++ v`. -/
lemma removeFirst_spec (p : List Char) :
    ∀ t, containsSub t p = true →
      ∃ u v, t = u ++ p ++ v ∧ removeFirst p t = u ++ v ∧
        ∀ u' v', t = u' ++ p ++ v' → u.length ≤ u'.length := by
  intro t
  induction t with
  | nil =>
    intro h
    have hp : p = [] := by
      simpa [containsSub, List.isEmpty_iff] using h
    subst hp
    exact ⟨[], [], rfl, rfl, fun u' v' _ => Nat.zero_le _⟩
  | cons c rest ih =>
    intro h
    by_cases hp : p.isPrefixOf (c :: rest) = true
    · obtain ⟨v, hv⟩ := (isPrefixOf_iff_exists p (c :: rest)).mp hp
      refine ⟨[], v, by simp [hv.symm], ?_, fun u' v' _ => Nat.zero_le _⟩
      have hd : (c :: rest).drop p.length = v := by
        rw [← hv, List.drop_left]
      simp [removeFirst, hp, hd]
    · have hr : containsSub rest p = true := by
        have := h
        simp only [containsSub, Bool.or_eq_true] at this
        rcases this with h1 | h1
        · exact absurd h1 hp
        · exact h1
      obtain ⟨u, v, h1, h2, h3⟩ := ih hr
      refine ⟨c :: u, v, by simp [h1], ?_, ?_⟩
      · simp [removeFirst, hp, h2]
      · intro u' v' he
        cases u' with
        | nil =>
          exfalso
          apply hp
          exact (isPrefixOf_iff_exists p (c :: rest)).mpr ⟨v', by simpa using he.symm⟩
        | cons c' u'' =>
          have he' : rest = u'' ++ p ++ v' := by
            have := he
            simp only [List.cons_append, List.append_assoc] at this ⊢
            injection this with _ h2'
          have := h3 u'' v' he'
          simpa using Nat.succ_le_succ this

/-- Completeness of the Python `in` test: any decomposition witnesses
membership. -/
lemma containsSub_append_self (p : List Char) :
    ∀ u v, containsSub (u ++ p ++ v) p = true := by
  intro u
  induction u with
  | nil =>
    intro v
    cases p with
    | nil =>
      cases v with
      | nil => rfl
      | cons c r => simp [containsSub, List.isPrefixOf]
    | cons c ps =>
      simp only [List.nil_append, List.cons_append, containsSub, Bool.or_eq_true]
      exact Or.inl ((isPrefixOf_iff_exists _ _).mpr ⟨v, by simp⟩)
  | cons a u ih =>
    intro v
    simp only [List.cons_append, containsSub, Bool.or_eq_true]
    exact Or.inr (by simpa using ih v)

/-! ### C1 — echo suppression -/

/-- C1 is false as stated, on two counts. With prompt `"b"` and raw stdout
`" abc "`: the trimmed stdout `"abc"` does not start with the prompt, yet the
code still removes the inner occurrence (`"ac"` instead of the unchanged
`"abc"`). With prompt `"a"` and raw stdout `"a bc"`: the prompt is a leading
prefix, but the cleaned output is `"bc"`, not the prefix-removed `" bc"`,
because the code re-strips after removal. -/
theorem cleanOutput_claim_counterexample :
    ((['b'].isPrefixOf (pyStrip (strChars " abc "))) = false ∧
      cleanOutput ['b'] (strChars " abc ") ≠ pyStrip (strChars " abc ")) ∧
    ((['a'].isPrefixOf (pyStrip (strChars "a bc"))) = true ∧
      cleanOutput ['a'] (strChars "a bc") ≠ (pyStrip (strChars "a bc")).drop 1) := by
  decide

/-- C1 (amended): echo suppression removes exactly one occurrence of the
prompt — the leftmost one — from the trimmed stdout whenever the prompt
occurs anywhere in it as a substring, and then trims the result again; the
output equals the trimmed stdout unchanged exactly when the prompt does not
occur in it at all (when the prompt is a leading prefix, the removed
occurrence is the leading one, `u = []` being shortest). -/
theorem cleanOutput_removes_leftmost_occurrence (p s : List Char) :
    (containsSub (pyStrip s) p = false →
      cleanOutput p s = pyStrip s ∧ ∀ u v, pyStrip s ≠ u ++ p ++ v) ∧
    (containsSub (pyStrip s) p = true →
      ∃ u v, pyStrip s = u ++ p ++ v ∧ cleanOutput p s = pyStrip (u ++ v) ∧
        ∀ u' v', pyStrip s = u' ++ p ++ v' → u.length ≤ u'.length) := by
  constructor
  · intro hf
    constructor
    · simp [cleanOutput, hf]
    · intro u v he
      rw [he] at hf
      rw [containsSub_append_self p u v] at hf
      exact Bool.noConfusion hf
  · intro ht
    obtain ⟨u, v, h1, h2, h3⟩ := removeFirst_spec p (pyStrip s) ht
    exact ⟨u, v, h1, by simp [cleanOutput, ht, h2], h3⟩

/-- Witness: prompt `"a"`, raw stdout `"x ab"`; the inner occurrence is
removed and the result re-trimmed, giving `"x b"`. -/
theorem cleanOutput_removes_leftmost_occurrence_witness :
    containsSub (pyStrip (strChars "x ab")) ['a'] = true ∧
    (∃ u v, pyStrip (strChars "x ab") = u ++ ['a'] ++ v ∧
      cleanOutput ['a'] (strChars "x ab") = pyStrip (u ++ v) ∧
      ∀ u' v', pyStrip (strChars "x ab") = u' ++ ['a'] ++ v' →
        u.length ≤ u'.length) :=
  ⟨by decide,
    (cleanOutput_removes_leftmost_occurrence ['a'] (strChars "x ab")).2 (by decide)⟩

/-! ### C4 — parameter clamping -/

lemma clamp_le_hi {α : Type} [LinearOrder α] (lo hi x : α) (h : lo ≤ hi) :
    max lo (min x hi) ≤ hi :=
  max_le h (min_le_right x hi)

lemma clamp_cases {α : Type} [LinearOrder α] (lo hi x : α) (h : lo ≤ hi) :
    max lo (min x hi) = x ∨
    (x < lo ∧ max lo (min x hi) = lo) ∨
    (hi < x ∧ max lo (min x hi) = hi) := by
  rcases lt_or_le x lo with h1 | h1
  · refine Or.inr (Or.inl ⟨h1, ?_⟩)
    rw [min_eq_left (le_of_lt (lt_of_lt_of_le h1 h)), max_eq_left (le_of_lt h1)]
  · rcases le_or_lt x hi with h2 | h2
    · exact Or.inl (by rw [min_eq_left h2, max_eq_right h1])
    · refine Or.inr (Or.inr ⟨h2, ?_⟩)
      rw [min_eq_right (le_of_lt h2), max_eq_right h]

lemma clamp_idem {α : Type} [LinearOrder α] (lo hi x : α) (h : lo ≤ hi) :
    max lo (min (max lo (min x hi)) hi) = max lo (min x hi) := by
  rw [min_eq_left (clamp_le_hi lo hi x h), ← max_assoc, max_self]

/-- C4: each numeric field of the clamped request lies in its documented
closed interval; an in-range value is kept, a value below the floor is
raised to the floor, a value above the ceiling is lowered to the ceiling;
and clamping is idempotent. -/
theorem clampParams_spec (r : GenerationRequest) :
    (1 ≤ (clampParams r).max_tokens ∧ (clampParams r).max_tokens ≤ 4096) ∧
    (0.1 ≤ (clampParams r).temperature ∧ (clampParams r).temperature ≤ 2.0) ∧
    (0.1 ≤ (clampParams r).top_p ∧ (clampParams r).top_p ≤ 1.0) ∧
    (0.1 ≤ (clampParams r).repeat_penalty ∧ (clampParams r).repeat_penalty ≤ 2.0) ∧
    ((clampParams r).max_tokens = r.max_tokens ∨
      (r.max_tokens < 1 ∧ (clampParams r).max_tokens = 1) ∨
      (4096 < r.max_tokens ∧ (clampParams r).max_tokens = 4096)) ∧
    ((clampParams r).temperature = r.temperature ∨
      (r.temperature < 0.1 ∧ (clampParams r).temperature = 0.1) ∨
      (2.0 < r.temperature ∧ (clampParams r).temperature = 2.0)) ∧
    ((clampParams r).top_p = r.top_p ∨
      (r.top_p < 0.1 ∧ (clampParams r).top_p = 0.1) ∨
      (1.0 < r.top_p ∧ (clampParams r).top_p = 1.0)) ∧
    ((clampParams r).repeat_penalty = r.repeat_penalty ∨
      (r.repeat_penalty < 0.1 ∧ (clampParams r).repeat_penalty = 0.1) ∨
      (2.0 < r.repeat_penalty ∧ (clampParams r).repeat_penalty = 2.0)) ∧
    clampParams (clampParams r) = clampParams r := by
  refine ⟨⟨le_max_left _ _, clamp_le_hi _ _ _ (by norm_num)⟩,
    ⟨le_max_left _ _, clamp_le_hi _ _ _ (by norm_num)⟩,
    ⟨le_max_left _ _, clamp_le_hi _ _ _ (by norm_num)⟩,
    ⟨le_max_left _ _, clamp_le_hi _ _ _ (by norm_num)⟩,
    clamp_cases _ _ _ (by norm_num),
    clamp_cases _ _ _ (by norm_num),
    clamp_cases _ _ _ (by norm_num),
    clamp_cases _ _ _ (by norm_num), ?_⟩
  simp only [clampParams]
  congr 1
  · exact clamp_idem _ _ _ (by norm_num)
  · exact clamp_idem _ _ _ (by norm_num)
  · exact clamp_idem _ _ _ (by norm_num)
  · exact clamp_idem _ _ _ (by norm_num)

/-! ### C5 — path resolution -/

/-- The claim's binary selection predicate: the path exists and is
executable (compared against the source loop's condition, which also tests
Python string truthiness). -/
def qualifiesBinary (fs : List Char → Option FileStat) (p : List Char) : Bool :=
  osPathExists fs p && osAccessX fs p

/-- The claim's model selection predicate: the path exists and its size
exceeds 1 MiB. -/
def qualifiesModel (fs : List Char → Option FileStat) (p : List Char) : Bool :=
  osPathExists fs p && decide (1024 * 1024 < osPathGetsize fs p)

lemma findFirst_eq_some_iff (ok : List Char → Bool) :
    ∀ (l : List (List Char)) (p : List Char),
      findFirst ok l = some p ↔
        ∃ pre post, l = pre ++ p :: post ∧ ok p = true ∧ ∀ q ∈ pre, ok q = false := by
  intro l
  induction l with
  | nil =>
    intro p
    constructor
    · intro h
      exact absurd h (by simp [findFirst])
    · rintro ⟨pre, post, h, -, -⟩
      exact absurd h.symm (List.append_ne_nil_of_right_ne_nil pre (List.cons_ne_nil p post))
  | cons a rest ih =>
    intro p
    by_cases ha : ok a = true
    · simp only [findFirst, ha, if_pos]
      constructor
      · intro h
        injection h with h
        exact ⟨[], rest, by simp [h], by rw [← h]; exact ha, by simp⟩
      · rintro ⟨pre, post, hdec, hok, hpre⟩
        cases pre with
        | nil =>
          injection hdec with h1 _
          rw [h1]
        | cons b pre' =>
          injection hdec with h1 _
          subst h1
          exact absurd ha (by simp [hpre a (by simp)])
    · have ha' : ok a = false := by
        cases hcases : ok a
        · rfl
        · exact absurd hcases ha
      simp only [findFirst, ha', Bool.false_eq_true, if_neg, ite_false]
      rw [ih p]
      constructor
      · rintro ⟨pre, post, hdec, hok, hpre⟩
        refine ⟨a :: pre, post, by simp [hdec], hok, ?_⟩
        intro q hq
        rcases List.mem_cons.mp hq with rfl | hq'
        · exact ha'
        · exact hpre q hq'
      · rintro ⟨pre, post, hdec, hok, hpre⟩
        cases pre with
        | nil =>
          injection hdec with h1 _
          subst h1
          exact absurd hok (by simp [ha'])
        | cons b pre' =>
          injection hdec with h1 h2
          subst h1
          exact ⟨pre', post, h2, hok, fun q hq => hpre q (List.mem_cons_of_mem a hq)⟩

lemma findFirst_eq_none_iff (ok : List Char → Bool) :
    ∀ l : List (List Char), findFirst ok l = none ↔ ∀ p ∈ l, ok p = false := by
  intro l
  induction l with
  | nil => simp [findFirst]
  | cons a rest ih =>
    by_cases ha : ok a = true
    · simp [findFirst, ha]
    · have ha' : ok a = false := by
        cases hcases : ok a
        · rfl
        · exact absurd hcases ha
      simp [findFirst, ha', ih]

lemma findFirst_congr (ok1 ok2 : List Char → Bool) (h : ∀ p, ok1 p = ok2 p) :
    ∀ l : List (List Char), findFirst ok1 l = findFirst ok2 l := by
  intro l
  induction l with
  | nil => rfl
  | cons a rest ih => simp [findFirst, h a, ih]

lemma truthy_qualifiesBinary (fs : List Char → Option FileStat) (hfs : fs [] = none) :
    ∀ p, (!p.isEmpty && (osPathExists fs p && osAccessX fs p)) = qualifiesBinary fs p := by
  intro p
  cases p with
  | nil => simp [qualifiesBinary, osPathExists, hfs]
  | cons c rest => simp [qualifiesBinary]

lemma truthy_qualifiesModel (fs : List Char → Option FileStat) (hfs : fs [] = none) :
    ∀ p, (!p.isEmpty && (osPathExists fs p && decide (1024 * 1024 < osPathGetsize fs p)))
      = qualifiesModel fs p := by
  intro p
  cases p with
  | nil => simp [qualifiesModel, osPathExists, hfs]
  | cons c rest => simp [qualifiesModel]

/-- C5: on any filesystem snapshot (in which the empty path does not exist,
as under `os.path.exists`), `_find_paths` selects the first binary candidate
that exists and is executable and the first model candidate that exists with
size above 1 MiB; when no candidate qualifies the corresponding path is left
unset and readiness is false. The resolver is a total function: it never
raises on missing paths. -/
theorem find_paths_first_match (fs : List Char → Option FileStat)
    (bc mc : List (List Char)) (hfs : fs [] = none) :
    (∀ p, (findPaths fs bc mc).llama_path = some p ↔
      ∃ pre post, bc = pre ++ p :: post ∧ qualifiesBinary fs p = true ∧
        ∀ q ∈ pre, qualifiesBinary fs q = false) ∧
    (∀ p, (findPaths fs bc mc).model_path = some p ↔
      ∃ pre post, mc = pre ++ p :: post ∧ qualifiesModel fs p = true ∧
        ∀ q ∈ pre, qualifiesModel fs q = false) ∧
    ((∀ q ∈ bc, qualifiesBinary fs q = false) →
      (findPaths fs bc mc).llama_path = none ∧
      (findPaths fs bc mc).is_initialized = false) ∧
    ((∀ q ∈ mc, qualifiesModel fs q = false) →
      (findPaths fs bc mc).model_path = none ∧
      (findPaths fs bc mc).is_initialized = false) := by
  have hb : findLlamaPath fs bc = findFirst (qualifiesBinary fs) bc :=
    findFirst_congr _ _ (truthy_qualifiesBinary fs hfs) bc
  have hm : findModelPath fs mc = findFirst (qualifiesModel fs) mc :=
    findFirst_congr _ _ (truthy_qualifiesModel fs hfs) mc
  refine ⟨?_, ?_, ?_, ?_⟩
  · intro p
    show findLlamaPath fs bc = some p ↔ _
    rw [hb]
    exact findFirst_eq_some_iff _ bc p
  · intro p
    show findModelPath fs mc = some p ↔ _
    rw [hm]
    exact findFirst_eq_some_iff _ mc p
  · intro hall
    have : findLlamaPath fs bc = none := by
      rw [hb]
      exact (findFirst_eq_none_iff _ bc).mpr hall
    constructor
    · exact this
    · show ((findLlamaPath fs bc).isSome && (findModelPath fs mc).isSome) = false
      rw [this]
      rfl
  · intro hall
    have : findModelPath fs mc = none := by
      rw [hm]
      exact (findFirst_eq_none_iff _ mc).mpr hall
    constructor
    · exact this
    · show ((findLlamaPath fs bc).isSome && (findModelPath fs mc).isSome) = false
      rw [this]
      simp

/-- A concrete snapshot: only `/app/llama.cpp/main` (executable) and
`/app/models/model.gguf` (2 MiB + 1 byte, not executable) exist. -/
def fsSample : List Char → Option FileStat := fun p =>
  if p = strChars "/app/llama.cpp/main" then some ⟨true, 10⟩
  else if p = strChars "/app/models/model.gguf" then some ⟨false, 2097153⟩
  else none

/-- Witness for C5 on the source's own candidate lists: the fourth binary
candidate and the first model candidate are selected. -/
theorem find_paths_first_match_witness :
    fsSample [] = none ∧
    (findPaths fsSample possible_llama_paths (possible_model_paths [])).llama_path
      = some (strChars "/app/llama.cpp/main") :=
  ⟨rfl,
    ((find_paths_first_match fsSample possible_llama_paths (possible_model_paths [])
        rfl).1 (strChars "/app/llama.cpp/main")).mpr
      ⟨[strChars "/app/llama.cpp/build/bin/llama-cli",
        strChars "/app/llama.cpp/build/bin/main",
        strChars "/app/llama.cpp/llama-cli"],
       [strChars "./llama.cpp/build/bin/llama-cli", strChars "./llama-cli"],
       by decide, by decide, by decide⟩⟩

/-! ### C6, C7, C8 — the generate result contract -/

/-- A sample request with the dataclass defaults. -/
def sampleReq : GenerationRequest :=
  { prompt := strChars "hi" }

/-- A sample initialized manager state. -/
def stReady : ManagerState :=
  { llama_path := some (strChars "/app/llama.cpp/llama-cli"),
    model_path := some (strChars "/app/models/model.gguf"),
    is_initialized := true }

/-- C6: the `GenerationResponse` invariant — every failing response carries
the empty text, across every branch of `generate` (not initialized,
non-zero exit, empty output, timeout, unexpected exception). -/
theorem generate_failure_text_empty (st : ManagerState) (req : GenerationRequest)
    (proc : ProcOutcome) (elapsed : Rat)
    (h : (generate st req proc elapsed).resp.success = false) :
    (generate st req proc elapsed).resp.text = [] := by
  by_cases hi : st.is_initialized = false
  · simp [generate, hi]
  · cases proc with
    | completed rc out err =>
      by_cases hrc : rc ≠ 0
      · simp [generate, hi, hrc]
      · by_cases hout : cleanOutput (clampParams req).prompt out = []
        · simp [generate, hi, hrc, hout]
        · exfalso
          simp [generate, hi, hrc, hout] at h
    | timedOut => simp [generate, hi]
    | raised m => simp [generate, hi]

/-- Witness for C6 at the timeout branch of an initialized manager. -/
theorem generate_failure_text_empty_witness :
    (generate stReady sampleReq ProcOutcome.timedOut 2).resp.success = false ∧
    (generate stReady sampleReq ProcOutcome.timedOut 2).resp.text = [] :=
  ⟨rfl, generate_failure_text_empty stReady sampleReq ProcOutcome.timedOut 2 rfl⟩

/-- C7: on any manager state produced by `_find_paths` in which the binary
path or the model path is unset, `generate` short-circuits to the
not-initialized failure before the lock/subprocess machinery: the response is
the not-initialized error with empty text and zero elapsed time, no child
process launch is attempted (`spawnTimeout = none`), the request dataclass is
not clamped, and the manager state is returned unchanged. -/
theorem generate_short_circuit_unset_path (fs : List Char → Option FileStat)
    (bc mc : List (List Char)) (req : GenerationRequest) (proc : ProcOutcome)
    (elapsed : Rat)
    (h : (findPaths fs bc mc).llama_path = none ∨ (findPaths fs bc mc).model_path = none) :
    generate (findPaths fs bc mc) req proc elapsed =
      ⟨⟨false, [], 0, 0, some notInitializedMsg⟩, req, findPaths fs bc mc, none⟩ := by
  have hinit : (findPaths fs bc mc).is_initialized = false := by
    show ((findLlamaPath fs bc).isSome && (findModelPath fs mc).isSome) = false
    rcases h with h | h
    · have : findLlamaPath fs bc = none := h
      rw [this]
      rfl
    · have : findModelPath fs mc = none := h
      rw [this]
      simp
  simp [generate, hinit]

/-- Witness for C7: the empty filesystem resolves nothing, and `generate`
short-circuits. -/
theorem generate_short_circuit_unset_path_witness :
    (findPaths (fun _ => none) possible_llama_paths (possible_model_paths [])).llama_path
        = none ∧
    generate (findPaths (fun _ => none) possible_llama_paths (possible_model_paths []))
        sampleReq ProcOutcome.timedOut 2 =
      ⟨⟨false, [], 0, 0, some notInitializedMsg⟩, sampleReq,
        findPaths (fun _ => none) possible_llama_paths (possible_model_paths []), none⟩ :=
  ⟨by decide,
    generate_short_circuit_unset_path (fun _ => none) possible_llama_paths
      (possible_model_paths []) sampleReq ProcOutcome.timedOut 2 (Or.inl (by decide))⟩

/-- C8: when the child process overruns the budget (`subprocess.run` raises
`TimeoutExpired`), `generate` returns a failure whose error says the timeout
was exceeded, with empty text and the elapsed wall-clock time attached; the
call returns normally (the timeout is not fatal), and the launch passed the
180-second timeout to `subprocess.run`, which terminates the child before
raising (Python `subprocess` semantics), so the process is not left running. -/
theorem generate_timeout_result (st : ManagerState) (req : GenerationRequest)
    (elapsed : Rat) (hinit : st.is_initialized = true) :
    generate st req ProcOutcome.timedOut elapsed =
      ⟨⟨false, [], 0, elapsed, some timeoutMsg⟩, clampParams req, st,
        some generationTimeoutSeconds⟩ := by
  simp [generate, hinit]

/-- Witness for C8 on an initialized manager. -/
theorem generate_timeout_result_witness :
    stReady.is_initialized = true ∧
    generate stReady sampleReq ProcOutcome.timedOut 2 =
      ⟨⟨false, [], 0, 2, some timeoutMsg⟩, clampParams sampleReq, stReady,
        some generationTimeoutSeconds⟩ :=
  ⟨rfl, generate_timeout_result stReady sampleReq 2 rfl⟩

/-! ### C2, C3, C10 — the POST /generate handler -/

/-- When the manager is initialized, `generate` hands back the request
dataclass with its numeric fields clamped, on every process outcome (the
in-place mutation of lines 132-135). -/
lemma generate_req_clamped (st : ManagerState) (req : GenerationRequest)
    (proc : ProcOutcome) (elapsed : Rat) (hinit : st.is_initialized = true) :
    (generate st req proc elapsed).req = clampParams req := by
  cases proc with
  | completed rc out err =>
    by_cases hrc : rc ≠ 0
    · simp [generate, hinit, hrc]
    · by_cases hout : cleanOutput (clampParams req).prompt out = []
      · simp [generate, hinit, hrc, hout]
      · simp [generate, hinit, hrc, hout]
  | timedOut => simp [generate, hinit]
  | raised m => simp [generate, hinit]

/-- C3 is right about the intent but wrong about the code: on a
not-initialized manager the handler evaluates
`jsonify({"success": false, ...})` (line 327) where `false` is an undefined
Python name, so a `NameError` escapes the handler (the check sits outside
the `try`) and Flask's 500 error handler answers — HTTP 500 with
`{"error": "Internal server error"}`, not the claimed 503 with a
success/error body. For every body, process outcome and elapsed time. -/
theorem generate_text_uninitialized_bug (body? : Option RawBody)
    (proc : ProcOutcome) (elapsed : Rat) :
    generate_text ⟨none, none, false⟩ body? proc elapsed = flask500 ∧
    (generate_text ⟨none, none, false⟩ body? proc elapsed).status = 500 ∧
    (generate_text ⟨none, none, false⟩ body? proc elapsed).status ≠ 503 := by
  refine ⟨rfl, rfl, ?_⟩
  intro h
  rw [show generate_text ⟨none, none, false⟩ body? proc elapsed = flask500 from rfl] at h
  exact absurd h (by decide)

/-- C2 is half right: a missing `"prompt"` field or an
empty-after-trim prompt is rejected before `model_manager.generate` is ever
invoked (and before any process launch). But the rejection does not produce
the claimed 400: the branches at lines 336 and 351 evaluate the undefined
name `false`, the `NameError` is caught at line 385 whose handler evaluates
`false` again (line 388), and the exception escapes to Flask's 500 error
handler. -/
theorem generate_text_rejects_prompt_before_invocation (st : ManagerState)
    (b : RawBody) (proc : ProcOutcome) (elapsed : Rat)
    (hinit : st.is_initialized = true)
    (hp : b.promptField = none ∨
      ∃ p, b.promptField = some p ∧ pyStrip p = []) :
    generate_text st (some b) proc elapsed = flask500 ∧
    (generate_text st (some b) proc elapsed).invoked = none ∧
    (generate_text st (some b) proc elapsed).spawned = false ∧
    (generate_text st (some b) proc elapsed).status = 500 ∧
    (generate_text st (some b) proc elapsed).status ≠ 400 := by
  have hmain : generate_text st (some b) proc elapsed = flask500 := by
    rcases hp with hp | ⟨p, hp, hempty⟩
    · simp [generate_text, hinit, hp]
    · simp [generate_text, hinit, hp, buildRequest, hempty]
  refine ⟨hmain, ?_, ?_, ?_, ?_⟩ <;> rw [hmain] <;> first
    | rfl
    | decide

/-- Witness for C2 at the concrete failing input `{"prompt": ""}` on an
initialized manager. -/
theorem generate_text_rejects_prompt_before_invocation_witness :
    stReady.is_initialized = true ∧
    generate_text stReady (some ⟨some [], none, none, none, none⟩)
        (ProcOutcome.completed 0 (strChars "ok") []) 0 = flask500 ∧
    (generate_text stReady (some ⟨some [], none, none, none, none⟩)
        (ProcOutcome.completed 0 (strChars "ok") []) 0).invoked = none :=
  ⟨rfl,
    (generate_text_rejects_prompt_before_invocation stReady
      ⟨some [], none, none, none, none⟩ (ProcOutcome.completed 0 (strChars "ok") []) 0
      rfl (Or.inr ⟨[], rfl, rfl⟩)).1,
    (generate_text_rejects_prompt_before_invocation stReady
      ⟨some [], none, none, none, none⟩ (ProcOutcome.completed 0 (strChars "ok") []) 0
      rfl (Or.inr ⟨[], rfl, rfl⟩)).2.1⟩

/-- C10: `generate` clamps the request dataclass in place, and the handler
reads `parameters_used` from that same object after the call — so every 200
response reports the clamped values of the submitted parameters, not the
raw submitted values. -/
theorem generate_text_reports_clamped_params (st : ManagerState) (b : RawBody)
    (p : List Char) (proc : ProcOutcome) (elapsed : Rat)
    (hp : b.promptField = some p)
    (h200 : (generate_text st (some b) proc elapsed).status = 200) :
    (generate_text st (some b) proc elapsed).params_used =
      some ((clampParams (buildRequest b p)).max_tokens,
            (clampParams (buildRequest b p)).temperature,
            (clampParams (buildRequest b p)).top_p,
            (clampParams (buildRequest b p)).repeat_penalty) := by
  by_cases hinit : st.is_initialized = false
  · exfalso
    rw [show generate_text st (some b) proc elapsed = flask500 by
      simp [generate_text, hinit]] at h200
    exact absurd h200 (by decide)
  · have hinit' : st.is_initialized = true := by
      cases hcases : st.is_initialized
      · exact absurd hcases hinit
      · rfl
    by_cases hempty : (buildRequest b p).prompt = []
    · exfalso
      rw [show generate_text st (some b) proc elapsed = flask500 by
        simp [generate_text, hinit', hp, hempty]] at h200
      exact absurd h200 (by decide)
    · have hparams : (generate_text st (some b) proc elapsed).params_used =
          some ((generate st (buildRequest b p) proc elapsed).req.max_tokens,
                (generate st (buildRequest b p) proc elapsed).req.temperature,
                (generate st (buildRequest b p) proc elapsed).req.top_p,
                                                                                                                                (generate st (buildRequest b p) proc elapsed).req.repeat_penalty) := by
        by_cases hsucc : (generate st (buildRequest b p) proc elapsed).resp.success = true
        · simp [generate_text, hinit', hp, hempty, hsucc]
        · simp [generate_text, hinit', hp, hempty, hsucc]
      rw [hparams, generate_req_clamped st (buildRequest b p) proc elapsed hinit']

/-- Witness for C10: submitted temperature 5.0 is reported as 2.0 in the
200 response's parameters. -/
theorem generate_text_reports_clamped_params_witness :
    (generate_text stReady (some ⟨some (strChars "hi"), none, some 5, none, none⟩)
        (ProcOutcome.completed 0 (strChars "hello there") []) 1).status = 200 ∧
    (generate_text stReady (some ⟨some (strChars "hi"), none, some 5, none, none⟩)
        (ProcOutcome.completed 0 (strChars "hello there") []) 1).params_used =
      some (512, 2, 0.9, 1.1) := by
  constructor
  · decide
  · rw [generate_text_reports_clamped_params stReady
      ⟨some (strChars "hi"), none, some 5, none, none⟩ (strChars "hi")
      (ProcOutcome.completed 0 (strChars "hello there") []) 1 rfl (by decide)]
    norm_num [clampParams, buildRequest]

/-! ### C9 — mutual exclusion of generation invocations -/

lemma fullLockProg_acquire_pos (i : Nat)
    (h : fullLockProg.get? i = some LockInstr.acquire) : i = 0 := by
  match i with
  | 0 => rfl
  | 1 => exact absurd h (by decide)
  | 2 => exact absurd h (by decide)
  | 3 => exact absurd h (by decide)
  | m + 4 => exact Option.noConfusion h

lemma fullLockProg_begin_pos (i : Nat)
    (h : fullLockProg.get? i = some LockInstr.beginInvoke) : i = 1 := by
  match i with
  | 0 => exact absurd h (by decide)
  | 1 => rfl
  | 2 => exact absurd h (by decide)
  | 3 => exact absurd h (by decide)
  | m + 4 => exact Option.noConfusion h

lemma fullLockProg_end_pos (i : Nat)
    (h : fullLockProg.get? i = some LockInstr.endInvoke) : i = 2 := by
  match i with
  | 0 => exact absurd h (by decide)
  | 1 => exact absurd h (by decide)
  | 2 => rfl
  | 3 => exact absurd h (by decide)
  | m + 4 => exact Option.noConfusion h

lemma fullLockProg_release_pos (i : Nat)
    (h : fullLockProg.get? i = some LockInstr.release) : i = 3 := by
  match i with
  | 0 => exact absurd h (by decide)
  | 1 => exact absurd h (by decide)
  | 2 => exact absurd h (by decide)
  | 3 => rfl
  | m + 4 => exact Option.noConfusion h

/-- The lock invariant: a thread owns the lock exactly when it is inside the
`with` block, i.e. it runs the full event sequence and its program counter is
strictly between `acquire` (position 0, pc 1 after) and `release`
(position 3, pc 4 after). -/
def LockInv (progs : Fin n → List LockInstr) (s : SysState n) : Prop :=
  ∀ t, s.owner = some t ↔ (progs t = fullLockProg ∧ 1 ≤ s.pc t ∧ s.pc t ≤ 3)

lemma lockInv_init (progs : Fin n → List LockInstr) :
    LockInv progs (initState n) := by
  intro t
  constructor
  · intro h
    exact Option.noConfusion h
  · rintro ⟨-, h1, -⟩
    exact absurd h1 (by simp [initState])

lemma lockInv_step {n : Nat} (progs : Fin n → List LockInstr)
    (hshape : ∀ t, progs t = [] ∨ progs t = fullLockProg)
    {s s' : SysState n} (hinv : LockInv progs s) (hstep : LockStep progs s s') :
    LockInv progs s' := by
  have hprog : ∀ t i x, (progs t).get? i = some x → progs t = fullLockProg := by
    intro t i x h
    rcases hshape t with he | he
    · rw [he] at h
      simp at h
    · exact he
  cases hstep with
  | acquire t _ h hfree =>
    have hpt : progs t = fullLockProg := hprog t _ _ h
    rw [hpt] at h
    have h0 : s.pc t = 0 := fullLockProg_acquire_pos _ h
    intro u
    show some t = some u ↔
      (progs u = fullLockProg ∧ 1 ≤ Function.update s.pc t (s.pc t + 1) u ∧
        Function.update s.pc t (s.pc t + 1) u ≤ 3)
    by_cases hu : u = t
    · subst hu
      rw [Function.update_same, h0]
      constructor
      · intro _
        exact ⟨hpt, by omega, by omega⟩
      · intro _
        rfl
    · rw [Function.update_noteq hu]
      constructor
      · intro he
        injection he with he
        exact absurd he.symm hu
      · intro hr
        have : s.owner = some u := (hinv u).mpr hr
        rw [hfree] at this
        exact Option.noConfusion this
  | beginInvoke t _ h =>
    have hpt : progs t = fullLockProg := hprog t _ _ h
    rw [hpt] at h
    have h1 : s.pc t = 1 := fullLockProg_begin_pos _ h
    have hown : s.owner = some t := (hinv t).mpr ⟨hpt, by omega, by omega⟩
    intro u
    show s.owner = some u ↔
      (progs u = fullLockProg ∧ 1 ≤ Function.update s.pc t (s.pc t + 1) u ∧
        Function.update s.pc t (s.pc t + 1) u ≤ 3)
    by_cases hu : u = t
    · subst hu
      rw [Function.update_same, h1, hown]
      constructor
      · intro _
        exact ⟨hpt, by omega, by omega⟩
      · intro _
        rfl
    · rw [Function.update_noteq hu]
      exact hinv u
  | endInvoke t _ h =>
    have hpt : progs t = fullLockProg := hprog t _ _ h
    rw [hpt] at h
    have h2 : s.pc t = 2 := fullLockProg_end_pos _ h
    have hown : s.owner = some t := (hinv t).mpr ⟨hpt, by omega, by omega⟩
    intro u
    show s.owner = some u ↔
      (progs u = fullLockProg ∧ 1 ≤ Function.update s.pc t (s.pc t + 1) u ∧
        Function.update s.pc t (s.pc t + 1) u ≤ 3)
    by_cases hu : u = t
    · subst hu
      rw [Function.update_same, h2, hown]
      constructor
      · intro _
        exact ⟨hpt, by omega, by omega⟩
      · intro _
        rfl
    · rw [Function.update_noteq hu]
      exact hinv u
  | release t _ h hown =>
    have hpt : progs t = fullLockProg := hprog t _ _ h
    rw [hpt] at h
    have h3 : s.pc t = 3 := fullLockProg_release_pos _ h
    intro u
    show none = some u ↔
      (progs u = fullLockProg ∧ 1 ≤ Function.update s.pc t (s.pc t + 1) u ∧
        Function.update s.pc t (s.pc t + 1) u ≤ 3)
    constructor
    · intro he
      exact Option.noConfusion he
    · by_cases hu : u = t
      · subst hu
        rw [Function.update_same, h3]
        rintro ⟨-, -, hle⟩
        exact absurd hle (by omega)
      · rw [Function.update_noteq hu]
        intro hr
        have : s.owner = some u := (hinv u).mpr hr
        rw [hown] at this
        injection this with this
        exact absurd this.symm hu

/-- C9: in any interleaving of request-handler threads each running the
`generate` event sequence for some manager state, every state reachable from
the initial one satisfies: (1) no two distinct threads are simultaneously
between `beginInvoke` and `endInvoke`, i.e. at most one subprocess invocation
executes at any instant; and (2) a thread that has finished its sequence
does not hold the lock — the lock is released on every exit path. -/
theorem generate_mutual_exclusion (n : Nat) (sts : Fin n → ManagerState)
    (s : SysState n)
    (hre : Relation.ReflTransGen (LockStep (fun t => generateEvents (sts t)))
      (initState n) s) :
    (∀ t1 t2 : Fin n, Invoking (fun t => generateEvents (sts t)) s t1 →
      Invoking (fun t => generateEvents (sts t)) s t2 → t1 = t2) ∧
    (∀ t : Fin n, s.pc t = (generateEvents (sts t)).length →
      s.owner ≠ some t) := by
  have hshape : ∀ t, (fun t => generateEvents (sts t)) t = [] ∨
      (fun t => generateEvents (sts t)) t = fullLockProg := by
    intro t
    by_cases h : (sts t).is_initialized = false <;> simp [generateEvents, h]
  have hinv : LockInv (fun t => generateEvents (sts t)) s := by
    induction hre with
    | refl => exact lockInv_init _
    | tail hsteps hstep ih => exact lockInv_step _ hshape ih hstep
  have howner : ∀ t : Fin n, Invoking (fun t => generateEvents (sts t)) s t →
      s.owner = some t := by
    intro t hInv
    have hInv' : (generateEvents (sts t)).get? (s.pc t) = some LockInstr.endInvoke := hInv
    have hpt : generateEvents (sts t) = fullLockProg := by
      rcases hshape t with he | he
      · have he' : generateEvents (sts t) = [] := he
        rw [he'] at hInv'
        simp at hInv'
      · exact he
    rw [hpt] at hInv'
    have h2 : s.pc t = 2 := fullLockProg_end_pos _ hInv'
    exact (hinv t).mpr ⟨hpt, by omega, by omega⟩
  constructor
  · intro t1 t2 h1 h2
    have o1 := howner t1 h1
    have o2 := howner t2 h2
    rw [o1] at o2
    injection o2
  · intro t hlen hown
    rcases (hinv t).mp hown with ⟨hpt, -, hle⟩
    have hpt' : generateEvents (sts t) = fullLockProg := hpt
    rw [hpt'] at hlen
    rw [hlen] at hle
    exact absurd hle (by decide)

/-- Two handler threads against the initialized manager. -/
def progsW : Fin 2 → List LockInstr := fun _ => generateEvents stReady

/-- State after thread 0 acquired the lock and began the invocation. -/
def sysW : SysState 2 :=
  ⟨some 0, Function.update (Function.update (fun _ => 0) (0 : Fin 2) 1) (0 : Fin 2) 2⟩

lemma sysW_reachable :
    Relation.ReflTransGen (LockStep progsW) (initState 2) sysW :=
  Relation.ReflTransGen.tail
    (Relation.ReflTransGen.tail Relation.ReflTransGen.refl
      (LockStep.acquire 0 (initState 2) (by decide) rfl))
    (show LockStep progsW _ sysW from LockStep.beginInvoke 0 _ (by decide))

/-- Witness for C9: at the reachable state `sysW`, thread 0 is mid-invocation
and the mutual-exclusion theorem applies. -/
theorem generate_mutual_exclusion_witness :
    Invoking progsW sysW (0 : Fin 2) ∧ (0 : Fin 2) = 0 :=
  ⟨rfl,
    (generate_mutual_exclusion 2 (fun _ => stReady) sysW sysW_reachable).1 0 0 rfl rfl⟩

end App
